import Mathlib

/-!
Shallow embedding of the VM backup-and-checkpoint orchestrator
(`lib/vdsm/virt/backup.py`) and proofs about its claimed properties.

External boundaries (libvirt domain calls, guest freeze/thaw, the
transient-disk storage subsystem) are modelled as explicit oracle data
carried in an `Env` structure and an explicit `Storage` state; each
embedded operation returns its updated storage, the trace of boundary
events it performed, and either a result or a raised exception.
-/

namespace VdsmBackup

/-- Libvirt error codes used by the module. The concrete numbers only
need to be distinct; the values follow libvirt's enumeration. -/
def VIR_ERR_OPERATION_INVALID : Nat := 55

/-- Libvirt error code: checkpoint does not exist. -/
def VIR_ERR_NO_DOMAIN_CHECKPOINT : Nat := 97

/-- Libvirt error code: backup does not exist. -/
def VIR_ERR_NO_DOMAIN_BACKUP : Nat := 98

/-- Libvirt error code: the checkpoint cannot be used as a diff base. -/
def VIR_ERR_CHECKPOINT_INCONSISTENT : Nat := 109

/-- The exception kinds raised by `backup.py` (`vdsm.common.exception`
plus `virdomain.NotConnectedError` and raw `libvirt.libvirtError`). -/
inductive Exn where
  | backupError (reason : String)
  | checkpointError (reason : String)
  | inconsistentCheckpoint (reason : String)
  | noSuchBackup (reason : String)
  | noSuchCheckpoint (reason : String)
  | notConnected
  deriving DecidableEq, Repr

/-- Decidable equality for `Except`, used to evaluate claims on
concrete inputs. -/
instance {ε α : Type} [DecidableEq ε] [DecidableEq α] :
    DecidableEq (Except ε α) := fun a b =>
  match a, b with
  | .error e1, .error e2 => decidable_of_iff (e1 = e2) (by simp)
  | .ok x, .ok y => decidable_of_iff (x = y) (by simp)
  | .error _, .ok _ => isFalse (by simp)
  | .ok _, .error _ => isFalse (by simp)

/-- DISK_TYPE values admitted for a scratch disk. -/
inductive DiskType where
  | file
  | block
  deriving DecidableEq, Repr

/-- String form of a disk type, as used in XML attributes. -/
def DiskType.str : DiskType → String
  | .file => "file"
  | .block => "block"

/-- Backup modes (`MODE_FULL`, `MODE_INCREMENTAL`). -/
inductive Mode where
  | full
  | incremental
  deriving DecidableEq, Repr

/-- String form of a backup mode. -/
def Mode.str : Mode → String
  | .full => "full"
  | .incremental => "incremental"

/-- `ScratchDiskConfig`: path and storage type of a scratch disk. -/
structure ScratchDiskConfig where
  path : String
  type : DiskType
  deriving DecidableEq, Repr

/-- `DiskConfig`: one disk of a backup request. Field types encode the
per-field property validation (required UUID strings, enum values) done
by `vdsm.common.properties`. -/
structure DiskConfig where
  vol_id : String
  img_id : String
  dom_id : String
  checkpoint : Bool
  backup_mode : Option Mode
  scratch_disk : Option ScratchDiskConfig
  deriving DecidableEq, Repr

/-- `BackupConfig` fields. Optional ids are `Option String`; absent
fields arrive as `none`, matching `backup_config.get(...)`. -/
structure BackupConfig where
  backup_id : String
  from_checkpoint_id : Option String
  to_checkpoint_id : Option String
  parent_checkpoint_id : Option String
  require_consistency : Bool
  creation_time : Option Nat
  disks : List DiskConfig
  deriving DecidableEq, Repr

/-- Validation performed by `BackupConfig.__init__` after the typed
fields are assigned: chain linkage requires a parent, and incremental
disk mode requires a `from_checkpoint_id`. Returns `.ok ()` when the
construction succeeds. -/
def BackupConfig.init (cfg : BackupConfig) : Except Exn Unit :=
  if cfg.from_checkpoint_id.isSome ∧ cfg.parent_checkpoint_id = none then
    .error (.backupError
      "Cannot start an incremental backup without parent_checkpoint_id")
  else if cfg.disks.any fun d =>
      cfg.from_checkpoint_id = none ∧ d.backup_mode = some .incremental then
    .error (.backupError
      "Cannot start an incremental backup for disk, full backup is requested")
  else
    .ok ()

/-- `BackupDrive`: resolved runtime view of one disk in a session. -/
structure BackupDrive where
  name : String
  path : String
  backup_mode : Option Mode
  scratch_disk : Option ScratchDiskConfig
  deriving DecidableEq, Repr

end VdsmBackup

namespace VdsmBackup

/-- A drive attached to the VM, as resolvable by `vm.findDriveByUUIDs`. -/
structure AttachedDrive where
  domainID : String
  imageID : String
  volumeID : String
  name : String
  path : String
  deriving DecidableEq, Repr

/-- The VM object: its id and the attached drives catalog. -/
structure Vm where
  id : String
  drives : List AttachedDrive
  deriving DecidableEq, Repr

/-- `vm.findDriveByUUIDs`: resolve a disk config against the attached
drives by its (domain, image, volume) triple. -/
def Vm.findDriveByUUIDs (vm : Vm) (d : DiskConfig) : Option AttachedDrive :=
  vm.drives.find? fun a =>
    a.domainID = d.dom_id ∧ a.imageID = d.img_id ∧ a.volumeID = d.vol_id

end VdsmBackup

namespace VdsmBackup

/-- XML element tree as built through `vmxml.Element`: a tag, attributes
in insertion order, child elements in insertion order, and optional text
content (`appendTextNode`). -/
inductive XmlElem where
  | mk (tag : String) (attrs : List (String × String))
       (children : List XmlElem) (text : Option String)

/-- Tag of an element. -/
def XmlElem.tag : XmlElem → String
  | .mk t _ _ _ => t

/-- Attributes of an element. -/
def XmlElem.attrs : XmlElem → List (String × String)
  | .mk _ a _ _ => a

/-- Children of an element. -/
def XmlElem.children : XmlElem → List XmlElem
  | .mk _ _ c _ => c

/-- Text content of an element. -/
def XmlElem.text : XmlElem → Option String
  | .mk _ _ _ t => t

/-- Value of an attribute, when present. -/
def XmlElem.attr (e : XmlElem) (k : String) : Option String :=
  (e.attrs.find? fun p => p.1 = k).map Prod.snd

/-- `vmxml.set_attr`: set an attribute, replacing an existing one of the
same name or appending a fresh one. -/
def setAttr (e : XmlElem) (k v : String) : XmlElem :=
  if e.attrs.any fun p => p.1 = k then
    .mk e.tag (e.attrs.map fun p => if p.1 = k then (k, v) else p)
       e.children e.text
  else
    .mk e.tag (e.attrs ++ [(k, v)]) e.children e.text

/-- Append a child element. -/
def appendChild (e c : XmlElem) : XmlElem :=
  .mk e.tag e.attrs (e.children ++ [c]) e.text

/-- Modelled from the spec: `storage.disable_dynamic_ownership` lives in
`vdsm.virt.vmdevices.storage`, outside the sampled sources. It augments
the scratch element with ownership metadata (a `seclabel` child) and
does not alter the element's tag, attributes, or text. -/
def disable_dynamic_ownership (e : XmlElem) : XmlElem :=
  appendChild e
    (.mk "seclabel" [("model", "dac"), ("type", "none"), ("relabel", "no")]
      [] none)

/-- Modelled from the spec: `nbdutils.UnixAddress`, outside the sampled
sources — a local-transport export address keyed by a socket path, with
transport name `unix`; per-disk export identifiers append the drive name
to the address. -/
structure NbdAddr where
  path : String
  deriving DecidableEq, Repr

/-- Transport name of a unix address. -/
def NbdAddr.transport (_ : NbdAddr) : String := "unix"

/-- Modelled from the spec: the per-disk export URL derived from the
address and drive name. -/
def NbdAddr.url (a : NbdAddr) (name : String) : String :=
  a.path ++ "/" ++ name

/-- The `scratch` element of one backup-descriptor disk entry: a block
scratch disk is referenced through a `dev` attribute, a file one through
a `file` attribute. -/
def scratchElem (sd : ScratchDiskConfig) : XmlElem :=
  match sd.type with
  | .block => .mk "scratch" [("dev", sd.path)] [] none
  | .file => .mk "scratch" [("file", sd.path)] [] none

/-- One disk entry of the backup descriptor. The source reads
`drive.scratch_disk` unconditionally (every drive has one by the time
`create_backup_xml` runs); an absent scratch disk defaults to an empty
file reference. -/
def backupDiskElem (drive : BackupDrive) (fromCp : Option String) :
    XmlElem :=
  let sd := drive.scratch_disk.getD ⟨"", .file⟩
  let disk : XmlElem :=
    .mk "disk" [("name", drive.name), ("type", sd.type.str)] [] none
  let disk :=
    match drive.backup_mode with
    | none => disk
    | some m =>
      let disk := setAttr disk "backupmode" m.str
      match m with
      | .incremental => setAttr disk "incremental" (fromCp.getD "")
      | .full => disk
  appendChild disk (disable_dynamic_ownership (scratchElem sd))

/-- `create_backup_xml`: the backup descriptor document. The source
returns the serialized string; the embedding returns the element tree
that `xmlutils.tostring` (external) would serialize. -/
def createBackupXml (addr : NbdAddr)
    (drives : List (String × BackupDrive)) (fromCp : Option String) :
    XmlElem :=
  let lead : List XmlElem :=
    match fromCp with
    | some c => [.mk "incremental" [] [] (some c)]
    | none => []
  let server : XmlElem :=
    .mk "server" [("transport", addr.transport), ("socket", addr.path)]
      [] none
  let disks : XmlElem :=
    .mk "disks" [] (drives.map fun p => backupDiskElem p.2 fromCp) none
  .mk "domainbackup" [("mode", "pull")] (lead ++ [server, disks]) none

/-- One bitmap-tracking disk entry of the checkpoint descriptor. The
source indexes `drives[disk.img_id]`; a missing key would raise, and the
embedding defaults the name to the empty string in that unreachable
case. -/
def checkpointDiskElem (drives : List (String × BackupDrive))
    (toCp : String) (d : DiskConfig) : XmlElem :=
  .mk "disk"
    [("name", ((drives.lookup d.img_id).map BackupDrive.name).getD ""),
     ("checkpoint", "bitmap"), ("bitmap", toCp)] [] none

/-- Children of the checkpoint descriptor, in emission order: name,
description embedding the backup id, optional parent linkage, creation
time when truthy (the source tests `if backup_cfg.creation_time:`, so a
zero timestamp is omitted), and the disks section unless the config
lists no disks. -/
def checkpointChildren (cfg : BackupConfig)
    (drives : List (String × BackupDrive)) (toCp : String) :
    List XmlElem :=
  [XmlElem.mk "name" [] [] (some toCp),
   XmlElem.mk "description" [] []
     (some ("checkpoint for backup '" ++ cfg.backup_id ++ "'"))] ++
  (match cfg.parent_checkpoint_id with
   | some p => [XmlElem.mk "parent" [] [.mk "name" [] [] (some p)] none]
   | none => []) ++
  (match cfg.creation_time with
   | some n => if n ≠ 0 then
       [XmlElem.mk "creationTime" [] [] (some (toString n))]
     else []
   | none => []) ++
  (if cfg.disks.isEmpty then []
   else
     [XmlElem.mk "disks" []
       ((cfg.disks.filter fun d => d.checkpoint).map
         (checkpointDiskElem drives toCp)) none])

/-- `create_checkpoint_xml`: the checkpoint descriptor, or `none` when
no checkpoint was requested. -/
def createCheckpointXml (cfg : BackupConfig)
    (drives : List (String × BackupDrive)) : Option XmlElem :=
  match cfg.to_checkpoint_id with
  | none => none
  | some toCp =>
    some (.mk "domaincheckpoint" [] (checkpointChildren cfg drives toCp)
      none)

end VdsmBackup

namespace VdsmBackup

/-- Boundary events performed by the orchestrator, recorded as a trace. -/
inductive Event where
  | listCheckpoints
  | createDisk (name : String) (size : Nat)
  | removeDisk (name : String)
  | listTransient
  | freeze
  | thaw
  | beginBackup
  | abortJob
  deriving DecidableEq, Repr

/-- Outcome of `dom.backupGetXMLDesc()`: the descriptor, a libvirt error
(code and message), or a disconnected domain adapter
(`virdomain.NotConnectedError`). -/
inductive BackupXmlRes where
  | ok (xml : String)
  | err (code : Nat) (msg : String)
  | notConnected
  deriving DecidableEq, Repr

/-- External boundary oracle: the responses the hypervisor, guest agent
and checkpoint store give during one orchestrator call. `checkpoints` is
the topological name listing of `dom.listAllCheckpoints`, `none` when
the call raises. `blockInfo` maps
a drive path to the `(capacity, allocation, physical)` triple of
`dom.blockInfo`; a missing path means the call raises. `cpLookup` maps a
checkpoint id to its descriptor XML for `checkpointLookupByName`. -/
structure Env where
  checkpoints : Option (List String)
  blockInfo : List (String × Nat × Nat × Nat)
  freezeError : Option String
  beginResult : Option (Nat × String)
  backupXml : BackupXmlRes
  abortResult : Option (Nat × String)
  cpLookup : List (String × String)
  deriving DecidableEq, Repr

/-- State of the storage subsystem's transient-disk registry for the VM,
with failure-injection data for each boundary call: `disks` holds the
registered `(name, size)` pairs, `createFails` the names whose creation
fails, `listFails` whether the listing call fails, and `removeFails` the
names whose removal fails. -/
structure Storage where
  disks : List (String × Nat)
  createFails : List String
  listFails : Bool
  removeFails : List String
  deriving DecidableEq, Repr

/-- `vm.cif.irs.list_transient_disks`: the registered disk names, or an
error response. -/
def listTransientDisks (st : Storage) : Except Unit (List String) :=
  if st.listFails then .error () else .ok (st.disks.map Prod.fst)

/-- `vm.cif.irs.remove_transient_disk`: remove a disk by name; returns
whether the call succeeded. -/
def removeTransientDisk (st : Storage) (name : String) : Storage × Bool :=
  if name ∈ st.removeFails then (st, false)
  else ({ st with disks := st.disks.filter fun d => d.1 ≠ name }, true)

/-- `vm.cif.irs.create_transient_disk`: register a disk of the given
name and size and return its path, or an error response. -/
def createTransientDisk (st : Storage) (name : String) (size : Nat) :
    Storage × Except Unit String :=
  if name ∈ st.createFails then (st, .error ())
  else ({ st with disks := st.disks ++ [(name, size)] },
        .ok ("/var/lib/vdsm/transient/" ++ name))

/-- `_remove_scratch_disks`: list the VM's transient disks — a listing
failure raises a backup error — then remove each listed disk, logging
(not escalating) individual removal failures. -/
def removeScratchDisks (st : Storage) (backupId : String) :
    Storage × List Event × Except Exn Unit :=
  match listTransientDisks st with
  | .error _ =>
    (st, [.listTransient],
     .error (.backupError ("Failed to fetch scratch disks: " ++ backupId)))
  | .ok names =>
    (names.foldl (fun acc n => (removeTransientDisk acc n).1) st,
     .listTransient :: names.map Event.removeDisk, .ok ())

/-- `_get_drive_capacity`: the capacity component of `dom.blockInfo` for
the drive's path. -/
def getDriveCapacity (env : Env) (drive : BackupDrive) : Except Exn Nat :=
  match env.blockInfo.lookup drive.path with
  | some info => .ok info.1
  | none =>
    .error (.backupError ("Failed to get drive " ++ drive.name ++
      " capacity"))

/-- Deterministic transient-disk name for a drive of a backup. -/
def scratchDiskName (backupId : String) (drive : BackupDrive) : String :=
  backupId ++ "." ++ drive.name

/-- `_create_transient_disk`: create the scratch disk for one drive,
named `{backup_id}.{drive_name}` and sized to the drive's capacity. -/
def createTransientDiskForDrive (env : Env) (st : Storage)
    (backupId : String) (drive : BackupDrive) :
    Storage × List Event × Except Exn String :=
  match getDriveCapacity env drive with
  | .error e => (st, [], .error e)
  | .ok size =>
    let name := scratchDiskName backupId drive
    match createTransientDisk st name size with
    | (st', .error _) =>
      (st', [.createDisk name size],
       .error (.backupError "Failed to create transient disk"))
    | (st', .ok path) => (st', [.createDisk name size], .ok path)

/-- `_create_scratch_disks`: walk the drives in order, skipping drives
whose scratch disk was pre-provisioned by the engine; on the first
creation failure remove every scratch disk of this backup id and
propagate (a failure of the removal's listing replaces the original
error, as the re-raise in the source is preempted). On success each
drive gains a file-type scratch-disk config. -/
def createScratchDisks (env : Env) (st : Storage) (backupId : String) :
    List (String × BackupDrive) →
      Storage × List Event × Except Exn (List (String × BackupDrive))
  | [] => (st, [], .ok [])
  | (img, d) :: rest =>
    match d.scratch_disk with
    | some _ =>
      let (st', tr, r) := createScratchDisks env st backupId rest
      (st', tr, r.map ((img, d) :: ·))
    | none =>
      match createTransientDiskForDrive env st backupId d with
      | (st1, tr1, .error e) =>
        let (st2, tr2, r2) := removeScratchDisks st1 backupId
        (st2, tr1 ++ tr2,
         .error (match r2 with | .ok _ => e | .error e2 => e2))
      | (st1, tr1, .ok path) =>
        let d' := { d with scratch_disk := some ⟨path, .file⟩ }
        let (st2, tr2, r) := createScratchDisks env st1 backupId rest
        (st2, tr1 ++ tr2, r.map ((img, d') :: ·))

/-- Python-dict insertion: replace the value of an existing key in
place, otherwise append. -/
def dictInsert (m : List (String × BackupDrive)) (k : String)
    (v : BackupDrive) : List (String × BackupDrive) :=
  if m.any fun p => p.1 = k then
    m.map fun p => if p.1 = k then (k, v) else p
  else m ++ [(k, v)]

/-- `_get_disks_drives`: resolve every configured disk to a
`BackupDrive`, keyed by image id with dict semantics; a failed lookup
raises a backup error. -/
def getDisksDrives (vm : Vm) (cfg : BackupConfig) :
    Except Exn (List (String × BackupDrive)) :=
  cfg.disks.foldlM
    (fun m d =>
      match vm.findDriveByUUIDs d with
      | none =>
        .error (.backupError "Failed to find one of the backup disks")
      | some a =>
        .ok (dictInsert m d.img_id ⟨a.name, a.path, d.backup_mode,
          d.scratch_disk⟩))
    []

/-- `_validate_parent_id`: skipped when no checkpoint is to be created;
otherwise compare the parent id against the leaf of a fresh topological
checkpoint listing, raising a checkpoint error on a listing failure or a
mismatch. -/
def validateParentId (env : Env) (cfg : BackupConfig) :
    List Event × Except Exn Unit :=
  if cfg.to_checkpoint_id = none then ([], .ok ())
  else
    match env.checkpoints with
    | none =>
      ([.listCheckpoints],
       .error (.checkpointError "Failed to fetch defined leaf checkpoint"))
    | some cps =>
      if cfg.parent_checkpoint_id ≠ cps.getLast? then
        ([.listCheckpoints],
         .error (.checkpointError
           "Parent checkpoint ID does not match the actual leaf checkpoint"))
      else ([.listCheckpoints], .ok ())

/-- `_begin_backup`: invoke `dom.backupBegin`, classifying an
inconsistent-checkpoint failure apart from a generic begin failure. -/
def beginBackup (env : Env) : List Event × Except Exn Unit :=
  match env.beginResult with
  | none => ([.beginBackup], .ok ())
  | some (code, msg) =>
    ([.beginBackup],
     if code = VIR_ERR_CHECKPOINT_INCONSISTENT then
       .error (.inconsistentCheckpoint ("Checkpoint can't be used: " ++ msg))
     else .error (.backupError ("Error starting backup: " ++ msg)))

/-- Body of the `try` block of `start_backup`: freeze (raising only when
the freeze failed and strict consistency was demanded), build the two
descriptors, and begin the backup. -/
def sessionBody (env : Env) (cfg : BackupConfig) :
    List Event × Except Exn Unit :=
  match env.freezeError with
  | some msg =>
    if cfg.require_consistency then
      ([.freeze], .error (.backupError ("Failed freeze VM: " ++ msg)))
    else
      let (tr, r) := beginBackup env
      (.freeze :: tr, r)
  | none =>
    let (tr, r) := beginBackup env
    (.freeze :: tr, r)

/-- Result of a successful `start_backup`: per-image export URLs and the
optionally attached checkpoint descriptor. -/
structure StartResult where
  disks : List (String × String)
  checkpoint : Option String
  deriving DecidableEq, Repr

/-- The `try/except/finally` tail of `start_backup`: on a session-body
failure remove the scratch disks (a removal-listing failure replacing
the original error) and re-raise; thaw runs on every path; on success
derive the export URLs and best-effort attach the checkpoint
descriptor. -/
def sessionAndFinalize (env : Env) (cfg : BackupConfig) (addr : NbdAddr)
    (st : Storage) (drives : List (String × BackupDrive)) :
    Storage × List Event × Except Exn StartResult :=
  match sessionBody env cfg with
  | (tr, .ok _) =>
    let urls := drives.map fun p => (p.1, addr.url p.2.name)
    let cp :=
      match cfg.to_checkpoint_id with
      | none => none
      | some cpid => env.cpLookup.lookup cpid
    (st, tr ++ [.thaw], .ok ⟨urls, cp⟩)
  | (tr, .error e) =>
    let (st2, tr2, r2) := removeScratchDisks st cfg.backup_id
    (st2, tr ++ tr2 ++ [.thaw],
     .error (match r2 with | .ok _ => e | .error e2 => e2))

/-- Modelled from the spec: `P_BACKUP` of `vdsm.common.constants`,
outside the sampled sources — the backup socket directory. -/
def P_BACKUP : String := "/run/vdsm/backup"

/-- `socket_path`: the per-backup export socket path. -/
def socketPath (backupId : String) : String :=
  P_BACKUP ++ "/" ++ backupId

/-- `start_backup`: validate the config, refuse a diskless backup,
validate the chain parent against the fresh leaf, resolve drives, create
scratch disks, then run the freeze/begin session with guaranteed thaw
and rollback on failure. -/
def startBackup (env : Env) (vm : Vm) (st : Storage)
    (cfg : BackupConfig) : Storage × List Event × Except Exn StartResult :=
  match cfg.init with
  | .error e => (st, [], .error e)
  | .ok _ =>
    if cfg.disks.isEmpty then
      (st, [], .error (.backupError "Cannot start a backup without disks"))
    else
      match validateParentId env cfg with
      | (tr0, .error e) => (st, tr0, .error e)
      | (tr0, .ok _) =>
        match getDisksDrives vm cfg with
        | .error e => (st, tr0, .error e)
        | .ok drives =>
          let addr : NbdAddr := ⟨socketPath cfg.backup_id⟩
          match createScratchDisks env st cfg.backup_id drives with
          | (st1, tr1, .error e) => (st1, tr0 ++ tr1, .error e)
          | (st1, tr1, .ok drives') =>
            let (st2, tr2, r) :=
              sessionAndFinalize env cfg addr st1 drives'
            (st2, tr0 ++ tr1 ++ tr2, r)

/-- `_get_backup_xml`: fetch the live backup descriptor, mapping the
no-domain-backup libvirt code to a distinct error kind and any other
libvirt failure to a generic backup error; a disconnected adapter
propagates as such. -/
def getBackupXml (env : Env) : Except Exn String :=
  match env.backupXml with
  | .ok xml => .ok xml
  | .err code msg =>
    if code = VIR_ERR_NO_DOMAIN_BACKUP then
      .error (.noSuchBackup ("VM backup not exists: " ++ msg))
    else .error (.backupError ("Failed to fetch VM backup info: " ++ msg))
  | .notConnected => .error .notConnected

/-- `_backup_exists`: whether an active backup session exists; both the
no-such-backup error and a disconnected adapter count as not found,
while a generic fetch failure propagates. -/
def backupExists (env : Env) : Except Exn Bool :=
  match getBackupXml env with
  | .ok _ => .ok true
  | .error (.noSuchBackup _) => .ok false
  | .error .notConnected => .ok false
  | .error e => .error e

/-- `stop_backup`: when a session exists, abort it — tolerating the
operation-invalid libvirt code as a benign race, escalating any other
code as a backup error without reaching scratch-disk removal — then
remove the scratch disks. -/
def stopBackup (env : Env) (st : Storage) (backupId : String) :
    Storage × List Event × Except Exn Unit :=
  match backupExists env with
  | .error e => (st, [], .error e)
  | .ok true =>
    match env.abortResult with
    | none =>
      let (st', tr, r) := removeScratchDisks st backupId
      (st', .abortJob :: tr, r)
    | some (code, msg) =>
      if code ≠ VIR_ERR_OPERATION_INVALID then
        (st, [.abortJob],
         .error (.backupError ("Failed to end VM backup: " ++ msg)))
      else
        let (st', tr, r) := removeScratchDisks st backupId
        (st', .abortJob :: tr, r)
  | .ok false =>
    let (st', tr, r) := removeScratchDisks st backupId
    (st', tr, r)

/-- Outcome of looking up and deleting one checkpoint
(`checkpointLookupByName` followed by `delete`). -/
inductive CpDeleteRes where
  | ok
  | err (code : Nat) (msg : String)
  deriving DecidableEq, Repr

/-- Per-checkpoint delete outcome oracle; an id absent from the table
deletes successfully. -/
def lookupDeleteRes (oc : List (String × CpDeleteRes)) (id : String) :
    CpDeleteRes :=
  (oc.lookup id).getD .ok

/-- Success-shaped payload of the bulk checkpoint operations: the ids
processed so far, with an optional embedded error. -/
structure CpResult where
  checkpoint_ids : List String
  error : Option (Nat × String)
  deriving DecidableEq, Repr

/-- Loop of `delete_checkpoints` with the accumulated deleted ids. -/
def deleteCheckpointsGo (oc : List (String × CpDeleteRes))
    (acc : List String) : List String → CpResult
  | [] => ⟨acc, none⟩
  | id :: rest =>
    match lookupDeleteRes oc id with
    | .ok => deleteCheckpointsGo oc (acc ++ [id]) rest
    | .err code msg =>
      if code = VIR_ERR_NO_DOMAIN_CHECKPOINT then
        deleteCheckpointsGo oc (acc ++ [id]) rest
      else ⟨acc, some (code, msg)⟩

/-- `delete_checkpoints`: process the caller-supplied ids in order; an
already-absent checkpoint counts as deleted; any other failure stops
processing and returns the ids deleted so far with the error embedded. -/
def deleteCheckpoints (oc : List (String × CpDeleteRes))
    (ids : List String) : CpResult :=
  deleteCheckpointsGo oc [] ids

end VdsmBackup

namespace VdsmBackup

/-- C9: `BackupConfig` construction rejects exactly the two invalid
shapes — `from_checkpoint_id` set with `parent_checkpoint_id` unset, or
an incremental-mode disk with `from_checkpoint_id` unset — and succeeds
on every config violating neither; construction is a pure function with
no boundary interaction. -/
theorem backupConfig_validation (cfg : BackupConfig) :
    (∃ r, cfg.init = .error (.backupError r)) ↔
      ((cfg.from_checkpoint_id.isSome ∧ cfg.parent_checkpoint_id = none) ∨
       (cfg.from_checkpoint_id = none ∧
        ∃ d ∈ cfg.disks, d.backup_mode = some .incremental)) := by
  unfold BackupConfig.init
  constructor
  · intro ⟨r, hr⟩
    by_cases h1 : cfg.from_checkpoint_id.isSome ∧ cfg.parent_checkpoint_id = none
    · exact Or.inl h1
    · rw [if_neg h1] at hr
      by_cases h2 : cfg.disks.any fun d =>
          cfg.from_checkpoint_id = none ∧ d.backup_mode = some .incremental
      · right
        rw [List.any_eq_true] at h2
        obtain ⟨d, hd, hprop⟩ := h2
        simp only [decide_eq_true_eq] at hprop
        exact ⟨hprop.1, d, hd, hprop.2⟩
      · rw [if_neg h2] at hr
        exact absurd hr (by simp)
  · intro h
    rcases h with h1 | ⟨hfrom, d, hd, hmode⟩
    · rw [if_pos h1]
      exact ⟨_, rfl⟩
    · have h1 : ¬ (cfg.from_checkpoint_id.isSome ∧
          cfg.parent_checkpoint_id = none) := by
        simp [hfrom]
      rw [if_neg h1]
      have h2 : cfg.disks.any (fun d =>
          cfg.from_checkpoint_id = none ∧
            d.backup_mode = some .incremental) = true := by
        rw [List.any_eq_true]
        exact ⟨d, hd, by simp [hfrom, hmode]⟩
      rw [if_pos h2]
      exact ⟨_, rfl⟩

/-- Concrete config whose validation is vacuous, used to evaluate the
claims on explicit inputs. -/
def exDisk : DiskConfig :=
  ⟨"v1", "i1", "d1", true, some .full, none⟩

/-- A successfully deleted id is appended to the accumulator and the
loop continues. -/
theorem deleteCheckpointsGo_cons_ok
    (oc : List (String × CpDeleteRes)) (acc : List String) (id : String)
    (rest : List String) (h : lookupDeleteRes oc id = .ok) :
    deleteCheckpointsGo oc acc (id :: rest) =
      deleteCheckpointsGo oc (acc ++ [id]) rest := by
  simp only [deleteCheckpointsGo, h]

/-- An already-absent id is treated exactly like a successful delete. -/
theorem deleteCheckpointsGo_cons_absent
    (oc : List (String × CpDeleteRes)) (acc : List String) (id : String)
    (rest : List String) (m : String)
    (h : lookupDeleteRes oc id = .err VIR_ERR_NO_DOMAIN_CHECKPOINT m) :
    deleteCheckpointsGo oc acc (id :: rest) =
      deleteCheckpointsGo oc (acc ++ [id]) rest := by
  simp [deleteCheckpointsGo, h]

/-- A hard failure stops the loop with the ids deleted so far and the
error embedded. -/
theorem deleteCheckpointsGo_cons_err
    (oc : List (String × CpDeleteRes)) (acc : List String) (id : String)
    (rest : List String) (code : Nat) (msg : String)
    (h : lookupDeleteRes oc id = .err code msg)
    (hcode : code ≠ VIR_ERR_NO_DOMAIN_CHECKPOINT) :
    deleteCheckpointsGo oc acc (id :: rest) = ⟨acc, some (code, msg)⟩ := by
  simp [deleteCheckpointsGo, h, hcode]

/-- The delete loop on a prefix of non-hard-failing ids accumulates
exactly that prefix before deciding the rest. -/
theorem deleteCheckpointsGo_clean_front
    (oc : List (String × CpDeleteRes)) (xs : List String) :
    (∀ x ∈ xs, lookupDeleteRes oc x = .ok ∨
      ∃ m, lookupDeleteRes oc x = .err VIR_ERR_NO_DOMAIN_CHECKPOINT m) →
    ∀ (acc zs : List String),
      deleteCheckpointsGo oc acc (xs ++ zs) =
        deleteCheckpointsGo oc (acc ++ xs) zs := by
  induction xs with
  | nil => intro _ acc zs; simp
  | cons x xs ih =>
    intro hxs acc zs
    have hx := hxs x (List.mem_cons_self x xs)
    have hxs' : ∀ y ∈ xs, lookupDeleteRes oc y = .ok ∨
        ∃ m, lookupDeleteRes oc y = .err VIR_ERR_NO_DOMAIN_CHECKPOINT m :=
      fun y hy => hxs y (List.mem_cons_of_mem x hy)
    rcases hx with hx | ⟨m, hx⟩
    · rw [List.cons_append,
        deleteCheckpointsGo_cons_ok oc acc x (xs ++ zs) hx,
        ih hxs' (acc ++ [x]) zs]
      simp
    · rw [List.cons_append,
        deleteCheckpointsGo_cons_absent oc acc x (xs ++ zs) m hx,
        ih hxs' (acc ++ [x]) zs]
      simp

/-- C5: `delete_checkpoints` processes ids strictly in order, silently
counts an already-absent checkpoint as deleted, and on the first other
failure stops and returns a success-shaped payload with exactly the ids
processed so far and the error's code and message; ids past the failure
are not reported and no exception escapes (the function totally returns
a payload). -/
theorem deleteCheckpoints_partial_progress
    (oc : List (String × CpDeleteRes)) (xs : List String) (y : String)
    (zs : List String) (code : Nat) (msg : String)
    (hxs : ∀ x ∈ xs, lookupDeleteRes oc x = .ok ∨
      ∃ m, lookupDeleteRes oc x = .err VIR_ERR_NO_DOMAIN_CHECKPOINT m)
    (hy : lookupDeleteRes oc y = .err code msg)
    (hcode : code ≠ VIR_ERR_NO_DOMAIN_CHECKPOINT) :
    deleteCheckpoints oc (xs ++ y :: zs) = ⟨xs, some (code, msg)⟩ := by
  unfold deleteCheckpoints
  rw [deleteCheckpointsGo_clean_front oc xs hxs [] (y :: zs)]
  rw [deleteCheckpointsGo_cons_err oc ([] ++ xs) y zs code msg hy hcode]
  simp

/-- Witness for C5: deleting `[a, b, c]` where `b` fails hard reports
exactly `a` as deleted, together with `b`'s error. -/
theorem deleteCheckpoints_partial_progress_witness :
    deleteCheckpoints [("b", .err 1 "disk broken")] ["a", "b", "c"] =
      ⟨["a"], some (1, "disk broken")⟩ :=
  deleteCheckpoints_partial_progress [("b", .err 1 "disk broken")]
    ["a"] "b" ["c"] 1 "disk broken"
    (by intro x hx; simp at hx; subst hx; left; decide)
    (by decide) (by decide)

/-- Folding removal over a name list covering every registered disk
empties the registry when no removal is set to fail. -/
theorem foldRemove_disks_nil (names : List String) :
    ∀ st : Storage, (∀ d ∈ st.disks, d.1 ∈ names) →
      st.removeFails = [] →
      (names.foldl (fun acc n => (removeTransientDisk acc n).1) st).disks
        = [] := by
  induction names with
  | nil =>
    intro st hsub _
    simp only [List.foldl_nil]
    rcases h : st.disks with _ | ⟨d, ds⟩
    · rfl
    · exact absurd (hsub d (by rw [h]; exact List.mem_cons_self d ds))
        (by simp)
  | cons n names ih =>
    intro st hsub hrf
    simp only [List.foldl_cons]
    have hmem : n ∉ st.removeFails := by rw [hrf]; exact List.not_mem_nil n
    have hstep : (removeTransientDisk st n).1 =
        { st with disks := st.disks.filter fun d => d.1 ≠ n } := by
      unfold removeTransientDisk
      rw [if_neg hmem]
    rw [hstep]
    apply ih
    · intro d hd
      simp only [List.mem_filter, decide_eq_true_eq] at hd
      have := hsub d hd.1
      simp only [List.mem_cons] at this
      exact this.resolve_left hd.2
    · exact hrf

/-- C10: `_remove_scratch_disks` raises a backup error and touches
nothing when the transient-disk listing fails; when the listing
succeeds it attempts to remove each listed disk in order and returns
success regardless of individual removal failures (which are only
logged), tolerating an empty listing; and when no removal fails the
registry is left empty. -/
theorem removeScratchDisks_spec (st : Storage) (backupId : String) :
    (st.listFails = true →
      removeScratchDisks st backupId =
        (st, [.listTransient],
         .error (.backupError
           ("Failed to fetch scratch disks: " ++ backupId)))) ∧
    (st.listFails = false →
      (removeScratchDisks st backupId).2.2 = .ok () ∧
      (removeScratchDisks st backupId).2.1 =
        .listTransient :: (st.disks.map Prod.fst).map Event.removeDisk ∧
      (st.removeFails = [] →
        (removeScratchDisks st backupId).1.disks = [])) := by
  constructor
  · intro h
    unfold removeScratchDisks listTransientDisks
    rw [h]
    rfl
  · intro h
    have hlist : listTransientDisks st = .ok (st.disks.map Prod.fst) := by
      unfold listTransientDisks
      rw [h]
      rfl
    unfold removeScratchDisks
    rw [hlist]
    refine ⟨rfl, rfl, fun hrf => ?_⟩
    exact foldRemove_disks_nil (st.disks.map Prod.fst) st
      (fun d hd => List.mem_map_of_mem Prod.fst hd) hrf

/-- Witness for C10: with a failing listing the removal raises; with a
healthy registry of one disk it removes it and succeeds. -/
theorem removeScratchDisks_spec_witness :
    (removeScratchDisks ⟨[("b1.sda", 7)], [], true, []⟩ "b1" =
      (⟨[("b1.sda", 7)], [], true, []⟩, [.listTransient],
       .error (.backupError "Failed to fetch scratch disks: b1"))) ∧
    (removeScratchDisks ⟨[("b1.sda", 7)], [], false, []⟩ "b1").1.disks
      = [] := by
  constructor
  · exact (removeScratchDisks_spec ⟨[("b1.sda", 7)], [], true, []⟩ "b1").1
      rfl
  · exact ((removeScratchDisks_spec ⟨[("b1.sda", 7)], [], false, []⟩
      "b1").2 rfl).2.2 rfl

/-- Removal of one transient disk never changes the failure-injection
flags of the storage state. -/
theorem removeTransientDisk_flags (st : Storage) (n : String) :
    (removeTransientDisk st n).1.listFails = st.listFails ∧
    (removeTransientDisk st n).1.removeFails = st.removeFails ∧
    (removeTransientDisk st n).1.createFails = st.createFails := by
  unfold removeTransientDisk
  split <;> simp

/-- Folding removal over any name list preserves the failure-injection
flags. -/
theorem foldRemove_flags (names : List String) :
    ∀ st : Storage,
      ((names.foldl (fun acc n => (removeTransientDisk acc n).1) st).listFails
          = st.listFails) ∧
      ((names.foldl (fun acc n => (removeTransientDisk acc n).1) st).removeFails
          = st.removeFails) := by
  induction names with
  | nil => intro st; exact ⟨rfl, rfl⟩
  | cons n names ih =>
    intro st
    simp only [List.foldl_cons]
    have h := removeTransientDisk_flags st n
    rcases ih (removeTransientDisk st n).1 with ⟨h1, h2⟩
    exact ⟨h1.trans h.1, h2.trans h.2.1⟩

/-- `_remove_scratch_disks` preserves the failure-injection flags. -/
theorem removeScratchDisks_flags (st : Storage) (bid : String) :
    (removeScratchDisks st bid).1.listFails = st.listFails ∧
    (removeScratchDisks st bid).1.removeFails = st.removeFails := by
  unfold removeScratchDisks
  cases h : listTransientDisks st with
  | error e => exact ⟨rfl, rfl⟩
  | ok names => exact foldRemove_flags names st

/-- With a healthy listing and no removal failures,
`_remove_scratch_disks` succeeds and leaves the registry empty. -/
theorem removeScratchDisks_clears (st : Storage) (bid : String)
    (hl : st.listFails = false) (hr : st.removeFails = []) :
    (removeScratchDisks st bid).1.disks = [] ∧
    (removeScratchDisks st bid).2.2 = .ok () := by
  have hlist : listTransientDisks st = .ok (st.disks.map Prod.fst) := by
    unfold listTransientDisks
    rw [hl]
    rfl
  unfold removeScratchDisks
  rw [hlist]
  exact ⟨foldRemove_disks_nil (st.disks.map Prod.fst) st
    (fun d hd => List.mem_map_of_mem Prod.fst hd) hr, rfl⟩

/-- Creation of one transient disk never changes the failure-injection
flags of the storage state. -/
theorem createTransientDisk_flags (st : Storage) (n : String) (s : Nat) :
    (createTransientDisk st n s).1.listFails = st.listFails ∧
    (createTransientDisk st n s).1.removeFails = st.removeFails := by
  unfold createTransientDisk
  split <;> simp

/-- `_create_transient_disk` for one drive preserves the
failure-injection flags. -/
theorem createTransientDiskForDrive_flags (env : Env) (st : Storage)
    (bid : String) (d : BackupDrive) :
    (createTransientDiskForDrive env st bid d).1.listFails = st.listFails ∧
    (createTransientDiskForDrive env st bid d).1.removeFails
      = st.removeFails := by
  unfold createTransientDiskForDrive getDriveCapacity
  rcases env.blockInfo.lookup d.path with _ | info
  · exact ⟨rfl, rfl⟩
  · simp only []
    rcases h : createTransientDisk st (scratchDiskName bid d) info.1
      with ⟨st', r⟩
    have hf := createTransientDisk_flags st (scratchDiskName bid d) info.1
    rw [h] at hf
    rcases r with _ | path
    · exact hf
    · exact hf

/-- Environment of a VM with an active backup whose abort fails with a
hard (non operation-invalid) libvirt error. -/
def c4Env : Env :=
  { checkpoints := some [], blockInfo := [], freezeError := none,
    beginResult := none, backupXml := .ok "<domainbackup/>",
    abortResult := some (1, "boom"), cpLookup := [] }

/-- Healthy transient-disk registry holding one scratch disk of backup
`b1`. -/
def c4St : Storage := ⟨[("b1.sda", 7)], [], false, []⟩

/-- Counterexample to C4 as stated: when the backup exists and the abort
call fails with an error other than operation-invalid, `stop_backup`
escalates immediately and scratch-disk removal does NOT run — the
registry still holds the disk tagged with this backup id and the
listing call was never made. -/
theorem stopBackup_removal_skipped_counterexample :
    backupExists c4Env = .ok true ∧
    c4Env.abortResult = some (1, "boom") ∧
    (1 : Nat) ≠ VIR_ERR_OPERATION_INVALID ∧
    stopBackup c4Env c4St "b1" =
      (c4St, [.abortJob],
       .error (.backupError "Failed to end VM backup: boom")) ∧
    (stopBackup c4Env c4St "b1").1.disks = [("b1.sda", 7)] ∧
    Event.listTransient ∉ (stopBackup c4Env c4St "b1").2.1 := by
  refine ⟨rfl, rfl, by decide, rfl, rfl, by decide⟩

/-- C4 (amended): `stop_backup` performs no abort when no session is
found (a disconnected domain counting as not found) and still runs
scratch-disk cleanup; when abort is called, success and the benign
operation-invalid race both lead to scratch-disk removal, while any
other hypervisor error escalates immediately, without running
scratch-disk removal. -/
theorem stopBackup_idempotent_cleanup (env : Env) (st : Storage)
    (backupId : String) :
    (backupExists env = .ok false →
      stopBackup env st backupId = removeScratchDisks st backupId) ∧
    (backupExists env = .ok true → env.abortResult = none →
      stopBackup env st backupId =
        ((removeScratchDisks st backupId).1,
         .abortJob :: (removeScratchDisks st backupId).2.1,
         (removeScratchDisks st backupId).2.2)) ∧
    (∀ msg, backupExists env = .ok true →
      env.abortResult = some (VIR_ERR_OPERATION_INVALID, msg) →
      stopBackup env st backupId =
        ((removeScratchDisks st backupId).1,
         .abortJob :: (removeScratchDisks st backupId).2.1,
         (removeScratchDisks st backupId).2.2)) ∧
    (∀ code msg, backupExists env = .ok true →
      env.abortResult = some (code, msg) →
      code ≠ VIR_ERR_OPERATION_INVALID →
      stopBackup env st backupId =
        (st, [.abortJob],
         .error (.backupError ("Failed to end VM backup: " ++ msg)))) := by
  refine ⟨?_, ?_, ?_, ?_⟩
  · intro hex
    simp [stopBackup, hex]
  · intro hex habort
    simp [stopBackup, hex, habort]
  · intro msg hex habort
    simp [stopBackup, hex, habort]
  · intro code msg hex habort hcode
    simp [stopBackup, hex, habort, hcode]

/-- Witness for C4 (amended): with no active session (the domain reports
no backup) the abort is skipped and the cleanup removes the stale
scratch disk. -/
theorem stopBackup_idempotent_cleanup_witness :
    stopBackup
      { checkpoints := some [], blockInfo := [], freezeError := none,
        beginResult := none, backupXml := .err 98 "gone",
        abortResult := none, cpLookup := [] } c4St "b1" =
      (⟨[], [], false, []⟩, [.listTransient, .removeDisk "b1.sda"],
       .ok ()) := by
  rw [(stopBackup_idempotent_cleanup
    { checkpoints := some [], blockInfo := [], freezeError := none,
      beginResult := none, backupXml := .err 98 "gone",
      abortResult := none, cpLookup := [] } c4St "b1").1 rfl]
  rfl

/-- C2: when the sequential scratch-disk creation fails for some drive,
every transient disk already registered for the VM — the scratch disks
created so far for this backup id among them — is removed before the
failure propagates, provided the storage listing and removal calls
themselves succeed; a subsequent listing of the VM's transient disks is
empty, hence contains none tagged with this backup id. -/
theorem createScratchDisks_rollback (env : Env) (backupId : String) :
    ∀ (drives : List (String × BackupDrive)) (st : Storage) (e : Exn),
      (createScratchDisks env st backupId drives).2.2 = .error e →
      st.listFails = false → st.removeFails = [] →
      (createScratchDisks env st backupId drives).1.disks = [] ∧
      listTransientDisks (createScratchDisks env st backupId drives).1 =
        .ok [] := by
  intro drives
  induction drives with
  | nil =>
    intro st e hfail _ _
    simp [createScratchDisks] at hfail
  | cons p rest ih =>
    intro st e hfail hlf hrf
    obtain ⟨img, d⟩ := p
    rcases hsd : d.scratch_disk with _ | sd
    · rcases hc : createTransientDiskForDrive env st backupId d
        with ⟨st1, tr1, r1⟩
      have hflags := createTransientDiskForDrive_flags env st backupId d
      rw [hc] at hflags
      have h1 : st1.listFails = false := hflags.1.trans hlf
      have h2 : st1.removeFails = [] := hflags.2.trans hrf
      rcases r1 with e1 | path
      · have hclear := removeScratchDisks_clears st1 backupId h1 h2
        have hflags2 := removeScratchDisks_flags st1 backupId
        simp only [createScratchDisks, hsd, hc]
        constructor
        · exact hclear.1
        · simp [listTransientDisks, hflags2.1.trans h1, hclear.1]
      · simp only [createScratchDisks, hsd, hc] at hfail ⊢
        rcases hrec : createScratchDisks env st1 backupId rest
          with ⟨st', tr', r'⟩
        rcases r' with e' | drives'
        · have hres := ih st1 e' (by rw [hrec]) h1 h2
          rw [hrec] at hres
          exact hres
        · rw [hrec] at hfail
          simp [Except.map] at hfail
    · rcases hrec : createScratchDisks env st backupId rest
        with ⟨st', tr', r'⟩
      simp only [createScratchDisks, hsd, hrec] at hfail ⊢
      rcases r' with e' | drives'
      · have hres := ih st e' (by rw [hrec]) hlf hrf
        rw [hrec] at hres
        exact hres
      · simp [Except.map] at hfail

/-- Witness for C2: two drives, the second one's transient-disk creation
fails; the first drive's scratch disk (and a leftover disk) are removed
and the subsequent listing is empty. -/
theorem createScratchDisks_rollback_witness :
    (createScratchDisks
      { checkpoints := some [], blockInfo :=
          [("/p/sda", 100, 10, 20), ("/p/sdb", 200, 10, 20)],
        freezeError := none, beginResult := none, backupXml := .ok "",
        abortResult := none, cpLookup := [] }
      ⟨[], ["b1.sdb"], false, []⟩ "b1"
      [("i1", ⟨"sda", "/p/sda", none, none⟩),
       ("i2", ⟨"sdb", "/p/sdb", none, none⟩)]).1.disks = [] := by
  refine (createScratchDisks_rollback
    { checkpoints := some [], blockInfo :=
        [("/p/sda", 100, 10, 20), ("/p/sdb", 200, 10, 20)],
      freezeError := none, beginResult := none, backupXml := .ok "",
      abortResult := none, cpLookup := [] } "b1"
    [("i1", ⟨"sda", "/p/sda", none, none⟩),
     ("i2", ⟨"sdb", "/p/sdb", none, none⟩)]
    ⟨[], ["b1.sdb"], false, []⟩
    (.backupError "Failed to create transient disk") ?_ rfl rfl).1
  decide

/-- Default capacity read for a drive: the capacity component of the
block-info answer, zero if the call would fail. -/
def driveCapOr0 (env : Env) (d : BackupDrive) : Nat :=
  ((env.blockInfo.lookup d.path).getD (0, 0, 0)).1

/-- A successful capacity read returns the block-info capacity. -/
theorem getDriveCapacity_ok (env : Env) (d : BackupDrive) (c : Nat)
    (h : getDriveCapacity env d = .ok c) : driveCapOr0 env d = c := by
  unfold getDriveCapacity at h
  unfold driveCapOr0
  cases hl : env.blockInfo.lookup d.path with
  | none => rw [hl] at h; exact absurd h (by simp)
  | some info =>
    rw [hl] at h
    simp only [Except.ok.injEq] at h
    simpa using h

/-- A successful transient-disk creation for a drive read the drive's
capacity and performed exactly one creation call, with the
deterministic name and that capacity as size. -/
theorem createTransientDiskForDrive_ok (env : Env) (st : Storage)
    (bid : String) (d : BackupDrive) (st1 : Storage) (tr1 : List Event)
    (path : String)
    (h : createTransientDiskForDrive env st bid d = (st1, tr1, .ok path)) :
    ∃ c, getDriveCapacity env d = .ok c ∧
      tr1 = [.createDisk (scratchDiskName bid d) c] := by
  unfold createTransientDiskForDrive at h
  split at h
  · exact absurd h (by simp)
  · rename_i c heq
    refine ⟨c, heq, ?_⟩
    simp only [] at h
    split at h
    · exact absurd h (by simp)
    · simp only [Prod.mk.injEq] at h
      exact h.2.1.symm

/-- C8: on a successful run, `_create_scratch_disks` performs exactly
one transient-disk creation per drive lacking a pre-provisioned scratch
disk (pre-provisioned ones are skipped), in drive order, each named
`{backup_id}.{drive_name}` and sized to the capacity reported by the
block-info call for the drive's path — not to its used bytes. -/
theorem createScratchDisks_scratch_naming (env : Env) (backupId : String) :
    ∀ (drives : List (String × BackupDrive)) (st : Storage)
      (res : List (String × BackupDrive)),
      (createScratchDisks env st backupId drives).2.2 = .ok res →
      (createScratchDisks env st backupId drives).2.1 =
        ((drives.map Prod.snd).filter fun d => d.scratch_disk.isNone).map
          (fun d => Event.createDisk (scratchDiskName backupId d)
            (driveCapOr0 env d)) ∧
      ∀ d ∈ (drives.map Prod.snd).filter fun d => d.scratch_disk.isNone,
        getDriveCapacity env d = .ok (driveCapOr0 env d) := by
  intro drives
  induction drives with
  | nil =>
    intro st res _
    simp [createScratchDisks]
  | cons p rest ih =>
    intro st res hok
    obtain ⟨img, d⟩ := p
    rcases hsd : d.scratch_disk with _ | sd
    · rcases hc : createTransientDiskForDrive env st backupId d
        with ⟨st1, tr1, r1⟩
      rcases r1 with e1 | path
      · exfalso
        simp only [createScratchDisks, hsd, hc] at hok
        rcases hrm : removeScratchDisks st1 backupId with ⟨st2, tr2, r2⟩
        rw [hrm] at hok
        rcases r2 with e2 | u <;> simp at hok
      · obtain ⟨c, hcap, htr1⟩ :=
          createTransientDiskForDrive_ok env st backupId d st1 tr1 path hc
        have hcap0 : driveCapOr0 env d = c := getDriveCapacity_ok env d c hcap
        simp only [createScratchDisks, hsd, hc] at hok ⊢
        rcases hrec : createScratchDisks env st1 backupId rest
          with ⟨st', tr', r'⟩
        rcases r' with e' | drives'
        · rw [hrec] at hok
          simp [Except.map] at hok
        · have hres := ih st1 drives' (by rw [hrec])
          rw [hrec] at hres
          have htr2 : tr' =
              List.map (fun d => Event.createDisk
                (scratchDiskName backupId d) (driveCapOr0 env d))
                (List.filter (fun d => d.scratch_disk.isNone)
                  (List.map Prod.snd rest)) := hres.1
          constructor
          · simp only [List.map_cons, List.filter_cons, hsd,
              Option.isNone_none, if_true]
            rw [htr1, htr2]
            simp [hcap0]
          · intro d' hd'
            simp only [List.map_cons, List.filter_cons, hsd] at hd'
            simp only [Option.isNone_none, if_true, List.mem_cons] at hd'
            rcases hd' with hd' | hd'
            · subst hd'
              rw [hcap0]
              exact hcap
            · exact hres.2 d' hd'
    · rcases hrec : createScratchDisks env st backupId rest
        with ⟨st', tr', r'⟩
      simp only [createScratchDisks, hsd, hrec] at hok ⊢
      rcases r' with e' | drives'
      · simp [Except.map] at hok
      · have hres := ih st drives' (by rw [hrec])
        rw [hrec] at hres
        constructor
        · simp only [List.map_cons, List.filter_cons, hsd,
            Option.isNone_some, if_false]
          exact hres.1
        · intro d' hd'
          simp only [List.map_cons, List.filter_cons, hsd,
            Option.isNone_some, if_false] at hd'
          exact hres.2 d' hd'

/-- Witness for C8: one pre-provisioned drive is skipped, the other
gets one transient disk named `b1.sdb` sized to the full 200-byte
capacity, not the 10 used bytes. -/
theorem createScratchDisks_scratch_naming_witness :
    (createScratchDisks
      { checkpoints := some [], blockInfo := [("/p/sdb", 200, 10, 20)],
        freezeError := none, beginResult := none, backupXml := .ok "",
        abortResult := none, cpLookup := [] }
      ⟨[], [], false, []⟩ "b1"
      [("i1", ⟨"sda", "/p/sda", none, some ⟨"/dev/pre", .block⟩⟩),
       ("i2", ⟨"sdb", "/p/sdb", none, none⟩)]).2.1 =
      [.createDisk "b1.sdb" 200] := by
  have h := (createScratchDisks_scratch_naming
    { checkpoints := some [], blockInfo := [("/p/sdb", 200, 10, 20)],
      freezeError := none, beginResult := none, backupXml := .ok "",
      abortResult := none, cpLookup := [] } "b1"
    [("i1", ⟨"sda", "/p/sda", none, some ⟨"/dev/pre", .block⟩⟩),
     ("i2", ⟨"sdb", "/p/sdb", none, none⟩)]
    ⟨[], [], false, []⟩
    [("i1", ⟨"sda", "/p/sda", none, some ⟨"/dev/pre", .block⟩⟩),
     ("i2", ⟨"sdb", "/p/sdb", none,
       some ⟨"/var/lib/vdsm/transient/b1.sdb", .file⟩⟩)]
    (by decide)).1
  rw [h]
  decide

/-- Every event of `_remove_scratch_disks` is a storage listing or
removal: it never freezes or thaws the guest. -/
theorem removeScratchDisks_noFT (st : Storage) (bid : String) :
    Event.thaw ∉ (removeScratchDisks st bid).2.1 ∧
    Event.freeze ∉ (removeScratchDisks st bid).2.1 := by
  unfold removeScratchDisks
  cases h : listTransientDisks st with
  | error e => simp
  | ok names =>
    constructor
    · simp only [List.mem_cons, List.mem_map]
      rintro (hc | ⟨a, _, hc⟩) <;> exact Event.noConfusion hc
    · simp only [List.mem_cons, List.mem_map]
      rintro (hc | ⟨a, _, hc⟩) <;> exact Event.noConfusion hc

/-- Every event of `_create_transient_disk` is a creation call: it never
freezes or thaws the guest. -/
theorem createTransientDiskForDrive_noFT (env : Env) (st : Storage)
    (bid : String) (d : BackupDrive) :
    Event.thaw ∉ (createTransientDiskForDrive env st bid d).2.1 ∧
    Event.freeze ∉ (createTransientDiskForDrive env st bid d).2.1 := by
  unfold createTransientDiskForDrive
  cases hcap : getDriveCapacity env d with
  | error e => simp
  | ok c =>
    simp only []
    cases hct : createTransientDisk st (scratchDiskName bid d) c with
    | mk st' r =>
      cases r with
      | error u => simp
      | ok path => simp

/-- `_create_scratch_disks` never freezes or thaws the guest. -/
theorem createScratchDisks_noFT (env : Env) (bid : String) :
    ∀ (drives : List (String × BackupDrive)) (st : Storage),
      Event.thaw ∉ (createScratchDisks env st bid drives).2.1 ∧
      Event.freeze ∉ (createScratchDisks env st bid drives).2.1 := by
  intro drives
  induction drives with
  | nil => intro st; simp [createScratchDisks]
  | cons p rest ih =>
    intro st
    obtain ⟨img, d⟩ := p
    rcases hsd : d.scratch_disk with _ | sd
    · rcases hc : createTransientDiskForDrive env st bid d
        with ⟨st1, tr1, r1⟩
      have h1 := createTransientDiskForDrive_noFT env st bid d
      rw [hc] at h1
      rcases r1 with e1 | path
      · rcases hrm : removeScratchDisks st1 bid with ⟨st2, tr2, r2⟩
        have h2 := removeScratchDisks_noFT st1 bid
        rw [hrm] at h2
        simp only [createScratchDisks, hsd, hc, hrm]
        constructor
        · intro hmem
          rcases List.mem_append.1 hmem with hm | hm
          · exact h1.1 hm
          · exact h2.1 hm
        · intro hmem
          rcases List.mem_append.1 hmem with hm | hm
          · exact h1.2 hm
          · exact h2.2 hm
      · rcases hrec : createScratchDisks env st1 bid rest
          with ⟨st', tr', r'⟩
        have h2 := ih st1
        rw [hrec] at h2
        simp only [createScratchDisks, hsd, hc, hrec]
        constructor
        · intro hmem
          rcases List.mem_append.1 hmem with hm | hm
          · exact h1.1 hm
          · exact h2.1 hm
        · intro hmem
          rcases List.mem_append.1 hmem with hm | hm
          · exact h1.2 hm
          · exact h2.2 hm
    · rcases hrec : createScratchDisks env st bid rest
        with ⟨st', tr', r'⟩
      have h2 := ih st
      rw [hrec] at h2
      simp only [createScratchDisks, hsd, hrec]
      exact h2

/-- `_begin_backup` performs exactly the begin call. -/
theorem beginBackup_trace (env : Env) :
    (beginBackup env).1 = [Event.beginBackup] := by
  unfold beginBackup
  rcases env.beginResult with _ | ⟨code, msg⟩ <;> rfl

/-- The session body's trace starts with the freeze call and never
contains a thaw. -/
theorem sessionBody_trace (env : Env) (cfg : BackupConfig) :
    Event.thaw ∉ (sessionBody env cfg).1 ∧
    Event.freeze ∈ (sessionBody env cfg).1 := by
  unfold sessionBody
  have hb := beginBackup_trace env
  rcases hbb : beginBackup env with ⟨trb, rb⟩
  rw [hbb] at hb
  simp only at hb
  subst hb
  rcases hf : env.freezeError with _ | msg
  · simp
  · by_cases hrc : cfg.require_consistency
    · simp [hrc]
    · simp [hrc]

/-- The post-freeze tail of `start_backup` thaws exactly once, on every
control-flow path, and its trace contains the freeze call. -/
theorem sessionAndFinalize_thaw_once (env : Env) (cfg : BackupConfig)
    (addr : NbdAddr) (st : Storage)
    (drives : List (String × BackupDrive)) :
    (sessionAndFinalize env cfg addr st drives).2.1.count Event.thaw = 1 ∧
    Event.freeze ∈ (sessionAndFinalize env cfg addr st drives).2.1 := by
  unfold sessionAndFinalize
  have hs := sessionBody_trace env cfg
  rcases hsb : sessionBody env cfg with ⟨tr, r⟩
  rw [hsb] at hs
  rcases r with e | u
  · rcases hrm : removeScratchDisks st cfg.backup_id with ⟨st2, tr2, r2⟩
    have h2 := removeScratchDisks_noFT st cfg.backup_id
    rw [hrm] at h2
    simp only []
    constructor
    · rw [List.count_append, List.count_append]
      rw [List.count_eq_zero.2 hs.1, List.count_eq_zero.2 h2.1]
      rfl
    · exact List.mem_append_left _ (List.mem_append_left _ hs.2)
  · simp only []
    constructor
    · rw [List.count_append]
      rw [List.count_eq_zero.2 hs.1]
      rfl
    · exact List.mem_append_left _ hs.2

/-- Every event of `_validate_parent_id` is a checkpoint listing. -/
theorem validateParentId_events (env : Env) (cfg : BackupConfig) :
    ∀ e ∈ (validateParentId env cfg).1, e = Event.listCheckpoints := by
  unfold validateParentId
  by_cases ht : cfg.to_checkpoint_id = none
  · rw [if_pos ht]
    simp
  · rw [if_neg ht]
    cases h : env.checkpoints with
    | none => simp
    | some cps =>
      by_cases hp : cfg.parent_checkpoint_id ≠ cps.getLast?
      · simp [hp]
      · simp [hp]

/-- The trace of `start_backup` is either empty, a prefix of
freeze/thaw-free preparation events, or such a prefix followed by the
session-and-finalize tail. -/
theorem startBackup_trace_split (env : Env) (vm : Vm) (st : Storage)
    (cfg : BackupConfig) :
    (startBackup env vm st cfg).2.1 = [] ∨
    ∃ trPre, (∀ e ∈ trPre, e ≠ Event.freeze ∧ e ≠ Event.thaw) ∧
      ((startBackup env vm st cfg).2.1 = trPre ∨
       ∃ addr st1 drives',
         (startBackup env vm st cfg).2.1 =
           trPre ++ (sessionAndFinalize env cfg addr st1 drives').2.1) := by
  unfold startBackup
  cases hinit : cfg.init with
  | error e => left; rfl
  | ok u =>
    by_cases hde : cfg.disks.isEmpty
    · rw [if_pos hde]
      left
      rfl
    · rw [if_neg hde]
      have hv := validateParentId_events env cfg
      rcases hvp : validateParentId env cfg with ⟨tr0, rv⟩
      rw [hvp] at hv
      have hpre : ∀ e ∈ tr0, e ≠ Event.freeze ∧ e ≠ Event.thaw := by
        intro e he
        rw [hv e he]
        exact ⟨by decide, by decide⟩
      rcases rv with e | u2
      · exact Or.inr ⟨tr0, hpre, Or.inl rfl⟩
      · cases hdd : getDisksDrives vm cfg with
        | error e => exact Or.inr ⟨tr0, hpre, Or.inl rfl⟩
        | ok drives =>
          have hcs := createScratchDisks_noFT env cfg.backup_id drives st
          rcases hcsd : createScratchDisks env st cfg.backup_id drives
            with ⟨st1, tr1, rs⟩
          rw [hcsd] at hcs
          have hpre2 : ∀ e ∈ tr0 ++ tr1,
              e ≠ Event.freeze ∧ e ≠ Event.thaw := by
            intro e he
            rcases List.mem_append.1 he with hm | hm
            · exact hpre e hm
            · constructor
              · intro hc
                rw [hc] at hm
                exact hcs.2 hm
              · intro hc
                rw [hc] at hm
                exact hcs.1 hm
          rcases rs with e | drives'
          · refine Or.inr ⟨tr0 ++ tr1, hpre2, Or.inl ?_⟩
            simp [hcsd]
          · refine Or.inr ⟨tr0 ++ tr1, hpre2,
              Or.inr ⟨⟨socketPath cfg.backup_id⟩, st1, drives', ?_⟩⟩
            rcases hsfz : sessionAndFinalize env cfg
                ⟨socketPath cfg.backup_id⟩ st1 drives'
              with ⟨st2, tr2, r⟩
            simp [hcsd, hsfz]

/-- C3: in `start_backup`, whenever the freeze step was reached (the
freeze call appears in the trace), the thaw call appears exactly once,
on every control-flow path out of the session — freeze failed or
succeeded, begin-backup failed or succeeded, scratch-disk rollback
raised or not. -/
theorem startBackup_thaw_exactly_once (env : Env) (vm : Vm)
    (st : Storage) (cfg : BackupConfig)
    (hfr : Event.freeze ∈ (startBackup env vm st cfg).2.1) :
    (startBackup env vm st cfg).2.1.count Event.thaw = 1 := by
  rcases startBackup_trace_split env vm st cfg with hnil |
    ⟨trPre, hpre, hcase | ⟨addr, st1, drives', heq⟩⟩
  · rw [hnil] at hfr
    exact absurd hfr (List.not_mem_nil _)
  · rw [hcase] at hfr
    exact absurd rfl (hpre _ hfr).1
  · rw [heq]
    rw [List.count_append]
    rw [List.count_eq_zero.2 fun hm => (hpre _ hm).2 rfl]
    rw [(sessionAndFinalize_thaw_once env cfg addr st1 drives').1]

/-- Witness for C3: a session whose begin-backup call fails still thaws
exactly once after the freeze. -/
theorem startBackup_thaw_exactly_once_witness :
    Event.freeze ∈ (startBackup
      { checkpoints := some [], blockInfo := [("/p/sda", 100, 10, 20)],
        freezeError := none, beginResult := some (5, "begin failed"),
        backupXml := .ok "", abortResult := none, cpLookup := [] }
      ⟨"vm1", [⟨"d1", "i1", "v1", "sda", "/p/sda"⟩]⟩
      ⟨[], [], false, []⟩
      { backup_id := "b1", from_checkpoint_id := none,
        to_checkpoint_id := none, parent_checkpoint_id := none,
        require_consistency := false, creation_time := none,
        disks := [⟨"v1", "i1", "d1", true, none, none⟩] }).2.1 ∧
    (startBackup
      { checkpoints := some [], blockInfo := [("/p/sda", 100, 10, 20)],
        freezeError := none, beginResult := some (5, "begin failed"),
        backupXml := .ok "", abortResult := none, cpLookup := [] }
      ⟨"vm1", [⟨"d1", "i1", "v1", "sda", "/p/sda"⟩]⟩
      ⟨[], [], false, []⟩
      { backup_id := "b1", from_checkpoint_id := none,
        to_checkpoint_id := none, parent_checkpoint_id := none,
        require_consistency := false, creation_time := none,
        disks := [⟨"v1", "i1", "d1", true, none, none⟩] }).2.1.count
      Event.thaw = 1 := by
  constructor
  · decide
  · exact startBackup_thaw_exactly_once _ _ _ _ (by decide)

/-- On a chain-parent mismatch (with a checkpoint requested),
`_validate_parent_id` raises the checkpoint-chain error after exactly
the listing call. -/
theorem validateParentId_mismatch (env : Env) (cfg : BackupConfig)
    (cps : List String) (t : String)
    (ht : cfg.to_checkpoint_id = some t)
    (hcps : env.checkpoints = some cps)
    (hne : cfg.parent_checkpoint_id ≠ cps.getLast?) :
    validateParentId env cfg =
      ([Event.listCheckpoints],
       .error (.checkpointError
         "Parent checkpoint ID does not match the actual leaf checkpoint")) := by
  unfold validateParentId
  rw [ht, hcps]
  simp [hne]

/-- C1 (amended): whenever the request asks for a new checkpoint
(`to_checkpoint_id` set) and construction succeeded on a non-empty disk
list, `start_backup` rejects the request with a checkpoint-chain error —
before any scratch-disk creation or freeze, leaving the storage state
untouched with only the listing call performed — unless
`parent_checkpoint_id` equals the leaf name of the fresh topological
listing; equivalently, when such a `start_backup` succeeds, the parent
equalled the leaf reported just before the start. -/
theorem startBackup_chain_validation (env : Env) (vm : Vm) (st : Storage)
    (cfg : BackupConfig) (cps : List String) (t : String)
    (ht : cfg.to_checkpoint_id = some t)
    (hcps : env.checkpoints = some cps)
    (hinit : cfg.init = .ok ())
    (hdisks : cfg.disks.isEmpty = false) :
    (cfg.parent_checkpoint_id ≠ cps.getLast? →
      startBackup env vm st cfg =
        (st, [Event.listCheckpoints],
         .error (.checkpointError
           "Parent checkpoint ID does not match the actual leaf checkpoint"))) ∧
    (∀ res, (startBackup env vm st cfg).2.2 = .ok res →
      cfg.parent_checkpoint_id = cps.getLast?) := by
  constructor
  · intro hne
    have hval := validateParentId_mismatch env cfg cps t ht hcps hne
    simp [startBackup, hinit, hdisks, hval]
  · intro res hok
    by_contra hne
    have hval := validateParentId_mismatch env cfg cps t ht hcps hne
    rw [show startBackup env vm st cfg =
        (st, [Event.listCheckpoints],
         .error (.checkpointError
           "Parent checkpoint ID does not match the actual leaf checkpoint"))
      from by simp [startBackup, hinit, hdisks, hval]] at hok
    exact absurd hok (by simp)

/-- A chain-continuing request (`from_checkpoint_id` set) that creates
no new checkpoint: the leaf validation is skipped by the code. -/
def c1Cfg : BackupConfig :=
  { backup_id := "b1", from_checkpoint_id := some "cp0",
    to_checkpoint_id := none, parent_checkpoint_id := some "cpX",
    require_consistency := false, creation_time := none,
    disks := [⟨"v1", "i1", "d1", false, none,
      some ⟨"/dev/scratch1", .block⟩⟩] }

/-- VM with the one drive the request references. -/
def c1Vm : Vm := ⟨"vm1", [⟨"d1", "i1", "v1", "sda", "/path/sda"⟩]⟩

/-- Hypervisor whose current leaf checkpoint is `cpLeaf`, not the
request's claimed parent `cpX`. -/
def c1Env : Env :=
  { checkpoints := some ["cpLeaf"], blockInfo := [],
    freezeError := none, beginResult := none, backupXml := .ok "",
    abortResult := none, cpLookup := [] }

/-- Empty, healthy transient-disk registry. -/
def c1St : Storage := ⟨[], [], false, []⟩

/-- Counterexample to C1 as stated: a request with `from_checkpoint_id`
set whose `parent_checkpoint_id` differs from the reported leaf is NOT
rejected — `start_backup` succeeds — because the code gates the leaf
validation on `to_checkpoint_id`, not on `from_checkpoint_id`. -/
theorem startBackup_chain_gate_counterexample :
    c1Cfg.from_checkpoint_id = some "cp0" ∧
    c1Cfg.parent_checkpoint_id = some "cpX" ∧
    c1Env.checkpoints = some ["cpLeaf"] ∧
    (some "cpX" : Option String) ≠ (["cpLeaf"] : List String).getLast? ∧
    (startBackup c1Env c1Vm c1St c1Cfg).2.2 =
      .ok ⟨[("i1", "/run/vdsm/backup/b1/sda")], none⟩ := by
  refine ⟨rfl, rfl, rfl, by decide, by decide⟩

/-- Request continuing the chain and creating checkpoint `cpNew`, with
a stale parent id. -/
def c1wCfg : BackupConfig :=
  { backup_id := "b1", from_checkpoint_id := some "cp0",
    to_checkpoint_id := some "cpNew", parent_checkpoint_id := some "cpX",
    require_consistency := false, creation_time := none,
    disks := [⟨"v1", "i1", "d1", true, some .full, none⟩] }

/-- Witness for C1 (amended): with `to_checkpoint_id` set and a stale
parent, `start_backup` rejects with the checkpoint-chain error and
performs only the listing call. -/
theorem startBackup_chain_validation_witness :
    startBackup c1Env c1Vm c1St c1wCfg =
      (c1St, [Event.listCheckpoints],
       .error (.checkpointError
         "Parent checkpoint ID does not match the actual leaf checkpoint")) := by
  exact (startBackup_chain_validation c1Env c1Vm c1St c1wCfg ["cpLeaf"]
    "cpNew" rfl rfl (by decide) rfl).1 (by decide)

/-- The augmented scratch element keeps the `scratch` tag and references
a block scratch disk through `dev` and a file one through `file`. -/
theorem scratch_ref_spec (sd : ScratchDiskConfig) :
    (disable_dynamic_ownership (scratchElem sd)).tag = "scratch" ∧
    (sd.type = .block →
      (disable_dynamic_ownership (scratchElem sd)).attr "dev"
          = some sd.path ∧
      (disable_dynamic_ownership (scratchElem sd)).attr "file" = none) ∧
    (sd.type = .file →
      (disable_dynamic_ownership (scratchElem sd)).attr "file"
          = some sd.path ∧
      (disable_dynamic_ownership (scratchElem sd)).attr "dev" = none) := by
  rcases sd with ⟨p, ty⟩
  cases ty with
  | file =>
    refine ⟨rfl, ?_, ?_⟩
    · intro h
      exact DiskType.noConfusion h
    · intro _
      exact ⟨rfl, rfl⟩
  | block =>
    refine ⟨rfl, ?_, ?_⟩
    · intro _
      exact ⟨rfl, rfl⟩
    · intro h
      exact DiskType.noConfusion h

/-- One backup-descriptor disk entry names the drive, carries the
backup mode exactly when the drive has one, carries the from-checkpoint
id when incremental, and holds exactly the scratch reference child. -/
theorem backupDiskElem_spec (drive : BackupDrive) (fromCp : Option String)
    (sd : ScratchDiskConfig) (hsd : drive.scratch_disk = some sd) :
    (backupDiskElem drive fromCp).tag = "disk" ∧
    (backupDiskElem drive fromCp).attr "name" = some drive.name ∧
    (backupDiskElem drive fromCp).attr "backupmode"
        = drive.backup_mode.map Mode.str ∧
    (∀ c, fromCp = some c → drive.backup_mode = some Mode.incremental →
      (backupDiskElem drive fromCp).attr "incremental" = some c) ∧
    (backupDiskElem drive fromCp).children =
      [disable_dynamic_ownership (scratchElem sd)] := by
  unfold backupDiskElem
  rw [hsd]
  rcases hm : drive.backup_mode with _ | m
  · refine ⟨rfl, ?_, ?_, ?_, rfl⟩
    · simp [XmlElem.attr, XmlElem.attrs, appendChild]
    · simp [XmlElem.attr, XmlElem.attrs, appendChild]
    · intro c _ hmode
      exact absurd hmode (by simp)
  · cases m with
    | full =>
      refine ⟨rfl, ?_, ?_, ?_, rfl⟩
      · simp [XmlElem.attr, XmlElem.attrs, appendChild, setAttr,
          XmlElem.tag, XmlElem.children, XmlElem.text]
      · simp [XmlElem.attr, XmlElem.attrs, appendChild, setAttr,
          XmlElem.tag, XmlElem.children, XmlElem.text, Mode.str]
      · intro c _ hmode
        exact absurd hmode (by simp)
    | incremental =>
      refine ⟨rfl, ?_, ?_, ?_, rfl⟩
      · simp [XmlElem.attr, XmlElem.attrs, appendChild, setAttr,
          XmlElem.tag, XmlElem.children, XmlElem.text]
      · simp [XmlElem.attr, XmlElem.attrs, appendChild, setAttr,
          XmlElem.tag, XmlElem.children, XmlElem.text, Mode.str]
      · intro c hc _
        subst hc
        simp [XmlElem.attr, XmlElem.attrs, appendChild, setAttr,
          XmlElem.tag, XmlElem.children, XmlElem.text]

/-- C6: for every address and resolved drive map, the backup descriptor
declares the export transport and address in its `server` entry and
holds one `disk` entry per drive, naming the drive, referencing its
scratch disk by `dev` for block type and by `file` for file type,
carrying the backup mode exactly when the drive has one, and carrying
the from-checkpoint id for incremental drives. -/
theorem createBackupXml_descriptor (addr : NbdAddr)
    (drives : List (String × BackupDrive)) (fromCp : Option String) :
    XmlElem.mk "server"
        [("transport", addr.transport), ("socket", addr.path)] [] none
      ∈ (createBackupXml addr drives fromCp).children ∧
    XmlElem.mk "disks" []
        (drives.map fun p => backupDiskElem p.2 fromCp) none
      ∈ (createBackupXml addr drives fromCp).children ∧
    ∀ drive : BackupDrive, ∀ sd : ScratchDiskConfig,
      drive.scratch_disk = some sd →
      (backupDiskElem drive fromCp).tag = "disk" ∧
      (backupDiskElem drive fromCp).attr "name" = some drive.name ∧
      (backupDiskElem drive fromCp).attr "backupmode"
          = drive.backup_mode.map Mode.str ∧
      (∀ c, fromCp = some c → drive.backup_mode = some Mode.incremental →
        (backupDiskElem drive fromCp).attr "incremental" = some c) ∧
      ∃ sc, (backupDiskElem drive fromCp).children = [sc] ∧
        sc.tag = "scratch" ∧
        (sd.type = .block →
          sc.attr "dev" = some sd.path ∧ sc.attr "file" = none) ∧
        (sd.type = .file →
          sc.attr "file" = some sd.path ∧ sc.attr "dev" = none) := by
  refine ⟨?_, ?_, ?_⟩
  · unfold createBackupXml
    rcases fromCp with _ | c <;> simp [XmlElem.children]
  · unfold createBackupXml
    rcases fromCp with _ | c <;> simp [XmlElem.children]
  · intro drive sd hsd
    obtain ⟨h1, h2, h3, h4, h5⟩ := backupDiskElem_spec drive fromCp sd hsd
    refine ⟨h1, h2, h3, h4,
      disable_dynamic_ownership (scratchElem sd), h5, ?_⟩
    exact scratch_ref_spec sd

/-- Witness for C6: a two-drive descriptor (file-backed full disk,
block-backed incremental disk diffing from `cp1`). -/
theorem createBackupXml_descriptor_witness :
    (XmlElem.mk "server" [("transport", "unix"),
        ("socket", "/run/vdsm/backup/b1")] [] none)
      ∈ (createBackupXml ⟨"/run/vdsm/backup/b1"⟩
        [("i1", ⟨"sda", "/p/sda", some .full, some ⟨"/f/s1", .file⟩⟩),
         ("i2", ⟨"sdb", "/p/sdb", some .incremental,
           some ⟨"/dev/s2", .block⟩⟩)]
        (some "cp1")).children ∧
    (backupDiskElem ⟨"sdb", "/p/sdb", some .incremental,
        some ⟨"/dev/s2", .block⟩⟩ (some "cp1")).attr "incremental"
      = some "cp1" := by
  constructor
  · exact (createBackupXml_descriptor ⟨"/run/vdsm/backup/b1"⟩
      [("i1", ⟨"sda", "/p/sda", some .full, some ⟨"/f/s1", .file⟩⟩),
       ("i2", ⟨"sdb", "/p/sdb", some .incremental,
         some ⟨"/dev/s2", .block⟩⟩)] (some "cp1")).1
  · exact ((createBackupXml_descriptor ⟨"/run/vdsm/backup/b1"⟩
      [] (some "cp1")).2.2
      ⟨"sdb", "/p/sdb", some .incremental, some ⟨"/dev/s2", .block⟩⟩
      ⟨"/dev/s2", .block⟩ rfl).2.2.2.1 "cp1" rfl rfl

/-- Checkpoint request with a zero creation timestamp and no disks. -/
def c7Cfg : BackupConfig :=
  { backup_id := "b1", from_checkpoint_id := none,
    to_checkpoint_id := some "cp1", parent_checkpoint_id := none,
    require_consistency := false, creation_time := some 0, disks := [] }

/-- Counterexample to C7 as stated: a present creation timestamp of `0`
is omitted from the descriptor, because the source guards the element
with Python truthiness (`if backup_cfg.creation_time:`), not a
presence test. -/
theorem createCheckpointXml_zero_time_counterexample :
    c7Cfg.creation_time = some 0 ∧
    (createCheckpointXml c7Cfg []).isSome = true ∧
    ((createCheckpointXml c7Cfg []).map fun x =>
        (x.children.filter fun c => c.tag = "creationTime").length)
      = some 0 := by
  exact ⟨rfl, rfl, rfl⟩

/-- C7 (amended): `create_checkpoint_xml` returns `none` exactly when no
checkpoint was requested; otherwise the descriptor names the
checkpoint, embeds the backup id in its description, includes the
parent linkage when present and the creation timestamp when present and
nonzero, contains one bitmap-tracking entry per disk flagged for
checkpoint inclusion when the config lists disks, and omits the disks
section entirely when the config lists no disks. -/
theorem createCheckpointXml_descriptor (cfg : BackupConfig)
    (drives : List (String × BackupDrive)) :
    (createCheckpointXml cfg drives = none ↔
      cfg.to_checkpoint_id = none) ∧
    (∀ t, cfg.to_checkpoint_id = some t →
      ∃ x, createCheckpointXml cfg drives = some x ∧
        XmlElem.mk "name" [] [] (some t) ∈ x.children ∧
        XmlElem.mk "description" [] []
            (some ("checkpoint for backup '" ++ cfg.backup_id ++ "'"))
          ∈ x.children ∧
        (∀ p, cfg.parent_checkpoint_id = some p →
          XmlElem.mk "parent" [] [.mk "name" [] [] (some p)] none
            ∈ x.children) ∧
        (∀ n, cfg.creation_time = some n → n ≠ 0 →
          XmlElem.mk "creationTime" [] [] (some (toString n))
            ∈ x.children) ∧
        (cfg.disks = [] → ∀ c ∈ x.children, c.tag ≠ "disks") ∧
        (cfg.disks ≠ [] →
          XmlElem.mk "disks" []
              ((cfg.disks.filter fun d => d.checkpoint).map
                (checkpointDiskElem drives t)) none
            ∈ x.children)) := by
  constructor
  · unfold createCheckpointXml
    cases h : cfg.to_checkpoint_id with
    | none => simp
    | some t => simp
  · intro t ht
    have hx : createCheckpointXml cfg drives =
        some (.mk "domaincheckpoint" []
          (checkpointChildren cfg drives t) none) := by
      unfold createCheckpointXml
      rw [ht]
    refine ⟨_, hx, ?_, ?_, ?_, ?_, ?_, ?_⟩
    · simp [checkpointChildren, XmlElem.children]
    · simp [checkpointChildren, XmlElem.children]
    · intro p hp
      simp [checkpointChildren, XmlElem.children, hp]
    · intro n hn hnz
      simp [checkpointChildren, XmlElem.children, hn, hnz]
    · intro hd c hc
      have hne : cfg.disks.isEmpty = true := by rw [hd]; rfl
      simp only [checkpointChildren, XmlElem.children, hne, if_true,
        List.append_nil, List.mem_append, List.mem_cons,
        List.mem_singleton, List.not_mem_nil, or_false] at hc
      rcases hc with ((rfl | rfl) | hc) | hc
      · simp [XmlElem.tag]
      · simp [XmlElem.tag]
      · rcases hp : cfg.parent_checkpoint_id with _ | p <;>
          rw [hp] at hc <;> simp at hc
        rw [hc]
        simp [XmlElem.tag]
      · rcases hn : cfg.creation_time with _ | n <;> rw [hn] at hc
        · simp at hc
        · by_cases hz : n ≠ 0
          · simp [hz] at hc
            rw [hc]
            simp [XmlElem.tag]
          · simp [hz] at hc
    · intro hd
      have hne : cfg.disks.isEmpty = false := by
        cases h : cfg.disks with
        | nil => exact absurd h hd
        | cons a l => rfl
      simp [checkpointChildren, XmlElem.children, hne]

/-- Fully populated checkpoint request used to instantiate C7. -/
def c7wCfg : BackupConfig :=
  { backup_id := "b1", from_checkpoint_id := some "cp0",
    to_checkpoint_id := some "cp1", parent_checkpoint_id := some "cp0",
    require_consistency := false, creation_time := some 42,
    disks := [⟨"v1", "i1", "d1", true, some .incremental, none⟩] }

/-- Witness for C7 (amended): the populated request yields a descriptor
carrying name, description, parent, creation time, and the disks
section with one bitmap entry. -/
theorem createCheckpointXml_descriptor_witness :
    ∃ x, createCheckpointXml c7wCfg
        [("i1", ⟨"sda", "/p/sda", some .incremental, none⟩)] = some x ∧
      XmlElem.mk "creationTime" [] [] (some "42") ∈ x.children ∧
      XmlElem.mk "disks" []
          [XmlElem.mk "disk" [("name", "sda"), ("checkpoint", "bitmap"),
            ("bitmap", "cp1")] [] none] none ∈ x.children := by
  obtain ⟨x, hx, _, _, _, htime, _, hdisks⟩ :=
    (createCheckpointXml_descriptor c7wCfg
      [("i1", ⟨"sda", "/p/sda", some .incremental, none⟩)]).2 "cp1" rfl
  refine ⟨x, hx, htime 42 rfl (by decide), ?_⟩
  have h := hdisks (by decide)
  simpa [checkpointDiskElem, dictInsert] using h

end VdsmBackup
